import Mathlib

/-!
Verification of the SVGInjector library (src/index.js) against its
natural-language specification.  The source is shallowly embedded:
DOM nodes are identified by natural numbers allocated from a counter
(`cloneNode` allocates a fresh identity), the module-level mutable
state (`svgCache`, `requestQueue`, `injectedElements`, `ranScripts`,
`injectCount`) is threaded explicitly, and the asynchronous XHR
completion events are modelled as explicit state-transition functions.
-/

namespace SVGInjectorModel

/-! ## String helpers

JavaScript string primitives used by the source: substring search
(the `*=` attribute selector and the `/\.svg/i` regex test), and the
decimal rendering of a JS number under string concatenation. -/

/-- List-of-chars model of a prefix test (`pat` is a prefix of the second list). -/
def hasPrefixCL : List Char → List Char → Bool
  | [], _ => true
  | _ :: _, [] => false
  | a :: as, b :: bs => a == b && hasPrefixCL as bs

/-- `containsSub pat hay` : `pat` occurs as a contiguous substring of `hay`. -/
def containsSub (pat : List Char) : List Char → Bool
  | [] => hasPrefixCL pat []
  | c :: t => hasPrefixCL pat (c :: t) || containsSub pat t

/-- `containsStr hay pat` : string-level substring occurrence. -/
def containsStr (hay pat : String) : Bool :=
  containsSub pat.data hay.data

/-- Decimal digit character, `digitChar d = '0' + d` for `d < 10`. -/
def digitChar (d : Nat) : Char := Char.ofNat (48 + d)

/-- Fuel-driven decimal rendering of a natural number (most significant
digit first); the fuel only has to exceed the number of digits. -/
def natReprCore : Nat → Nat → List Char
  | 0, _ => []
  | fuel + 1, n =>
    if n < 10 then [digitChar n]
    else natReprCore fuel (n / 10) ++ [digitChar (n % 10)]

/-- Decimal rendering of a JS number (a natural in this model). -/
def natRepr (n : Nat) : String := ⟨natReprCore (n + 1) n⟩

/-! ## Resource cache and request coalescing (src/index.js lines 14-141)

`svgCache[url]` is `undefined` (absent), `{}` (pending: seeded at line 67),
or an `SVGSVGElement` (ready).  `requestQueue[url]` is the FIFO list of
queued callbacks.  Callbacks are identified by naturals.  The XHR
completion handler closes over the callback of the `loadSvg` call that
started the fetch; we record it in `inflight`. -/

inductive CacheVal where
  | absent
  | pending
  | ready (node : Nat)
deriving DecidableEq, Repr

/-- Argument a queued/invoked callback receives: a DOM node (by identity),
an error string, or no argument (the bare `callback()` at line 82). -/
inductive LoadArg where
  | node (id : Nat)
  | err (msg : String)
  | empty
deriving DecidableEq, Repr

structure Invocation where
  cb : Nat
  arg : LoadArg
deriving DecidableEq, Repr

@[ext]
structure LoadState where
  cache : String → CacheVal
  queue : String → List Nat
  inflight : String → Option Nat
  fetchCount : String → Nat
  nextNode : Nat

/-- `queueRequest` (lines 30-33): append the callback to the per-url FIFO. -/
def queueRequest (url : String) (cb : Nat) (s : LoadState) : LoadState :=
  { s with queue := fun u => if u = url then s.queue u ++ [cb] else s.queue u }

/-- `loadSvg` (lines 48-141), synchronous part.  Returns the new state and
the invocations performed synchronously inside the call.  A cache hit
(ready) invokes the callback directly with a fresh clone (line 52); a
pending entry only queues (line 56); an absent entry seeds the cache to
pending, queues the callback and starts the single XHR (lines 61-139). -/
def loadSvg (hasXHR : Bool) (url : String) (cb : Nat) (s : LoadState) :
    LoadState × List Invocation :=
  match s.cache url with
  | .ready _ =>
    ({ s with nextNode := s.nextNode + 1 }, [⟨cb, .node s.nextNode⟩])
  | .pending => (queueRequest url cb s, [])
  | .absent =>
    if hasXHR then
      let s1 : LoadState :=
        { s with cache := fun u => if u = url then .pending else s.cache u }
      let s2 := queueRequest url cb s1
      ({ s2 with
          inflight := fun u => if u = url then some cb else s2.inflight u,
          fetchCount := fun u => if u = url then s2.fetchCount u + 1 else s2.fetchCount u },
       [])
    else (s, [⟨cb, .err "Browser does not support XMLHttpRequest"⟩])

/-- Body of `processRequestQueue` (lines 35-46): each deferred
`setTimeout` body clones the cached node afresh for one queued callback. -/
def processQueueGo : List Nat → LoadState → LoadState × List Invocation
  | [], s => (s, [])
  | cb :: rest, s =>
    let r := processQueueGo rest { s with nextNode := s.nextNode + 1 }
    (r.1, ⟨cb, .node s.nextNode⟩ :: r.2)

/-- `processRequestQueue url` (lines 35-46): deliver a fresh clone to every
queued callback, in FIFO order (the `setTimeout` tasks fire in order). -/
def processRequestQueue (url : String) (s : LoadState) : LoadState × List Invocation :=
  processQueueGo (s.queue url) s

/-- The caching step of XHR success (line 92): the fresh
`responseXML.documentElement` node becomes the canonical cache entry. -/
def cacheReady (url : String) (s : LoadState) : LoadState :=
  { s with nextNode := s.nextNode + 1,
           cache := fun u => if u = url then .ready s.nextNode else s.cache u }

/-- XHR success completion (lines 87-125): the `responseXML.documentElement`
is a fresh node, cached as the canonical entry, then the queue is drained. -/
def resolveSuccess (url : String) (s : LoadState) : LoadState × List Invocation :=
  processRequestQueue url (cacheReady url s)

/-- XHR failure completion, 404 or null `responseXML` (lines 77-84): only
the closed-over callback of the initiating `loadSvg` call is invoked
(error message, an informational note when local, then a bare call);
the queue is not drained and the cache entry stays pending. -/
def resolveFail404 (isLocal : Bool) (url : String) (s : LoadState) :
    LoadState × List Invocation :=
  match s.inflight url with
  | some cb =>
    (s, ⟨cb, .err ("Unable to load SVG file: " ++ url)⟩ ::
        ((if isLocal then
            [⟨cb, .err "Note: SVG injection ajax calls do not work locally without adjusting security setting in your browser. Or consider using a local webserver."⟩]
          else []) ++ [⟨cb, .empty⟩]))
  | none => (s, [])

/-- N consumers calling `loadSvg` for the same url in sequence,
accumulating the synchronous invocations. -/
def loadAll (url : String) (cbs : List Nat) (s : LoadState) :
    LoadState × List Invocation :=
  match cbs with
  | [] => (s, [])
  | cb :: rest =>
    let r1 := loadSvg true url cb s
    let r2 := loadAll url rest r1.1
    (r2.1, r1.2 ++ r2.2)

/-- The initial module state: empty cache, empty queues, no fetch yet. -/
def s0 : LoadState :=
  { cache := fun _ => .absent, queue := fun _ => [],
    inflight := fun _ => none, fetchCount := fun _ => 0, nextNode := 0 }

/-! ### Lemmas about the loader -/

/-- While a url is pending, further `loadSvg` calls only append to its
queue and invoke nothing synchronously. -/
lemma loadAll_pending (url : String) (cbs : List Nat) :
    ∀ s : LoadState, s.cache url = .pending →
      loadAll url cbs s =
        ({ s with queue := fun u => if u = url then s.queue u ++ cbs else s.queue u }, []) := by
  induction cbs with
  | nil =>
    intro s h
    simp only [loadAll]
    refine Prod.ext ?_ rfl
    refine LoadState.ext rfl ?_ rfl rfl rfl
    funext u
    by_cases hu : u = url <;> simp [hu]
  | cons cb rest ih =>
    intro s h
    have hstep : loadSvg true url cb s = (queueRequest url cb s, []) := by
      simp [loadSvg, h]
    have hq : (queueRequest url cb s).cache url = .pending := h
    simp only [loadAll, hstep]
    rw [ih _ hq]
    refine Prod.ext ?_ rfl
    refine LoadState.ext rfl ?_ rfl rfl rfl
    funext u
    by_cases hu : u = url <;> simp [queueRequest, hu]

/-- Starting from an Absent key, a batch of N ≥ 1 `loadSvg` calls seeds
the cache to Pending, enqueues all N callbacks in order, records the
first caller as the fetch initiator, performs exactly one fetch, and
invokes nothing synchronously. -/
lemma loadAll_absent (url : String) (cb0 : Nat) (rest : List Nat) (s : LoadState)
    (hA : s.cache url = .absent) :
    loadAll url (cb0 :: rest) s =
      ({ s with
          cache := fun u => if u = url then .pending else s.cache u,
          queue := fun u => if u = url then s.queue u ++ cb0 :: rest else s.queue u,
          inflight := fun u => if u = url then some cb0 else s.inflight u,
          fetchCount := fun u => if u = url then s.fetchCount u + 1 else s.fetchCount u },
       []) := by
  have hstep : loadSvg true url cb0 s =
      ({ s with
          cache := fun u => if u = url then .pending else s.cache u,
          queue := fun u => if u = url then s.queue u ++ [cb0] else s.queue u,
          inflight := fun u => if u = url then some cb0 else s.inflight u,
          fetchCount := fun u => if u = url then s.fetchCount u + 1 else s.fetchCount u },
       []) := by
    simp only [loadSvg, hA, if_true]
    refine Prod.ext ?_ rfl
    refine LoadState.ext rfl ?_ rfl ?_ rfl
    · funext u
      by_cases hu : u = url <;> simp [queueRequest, hu]
    · funext u
      by_cases hu : u = url <;> simp [queueRequest, hu]
  simp only [loadAll, hstep]
  rw [loadAll_pending url rest _ (by simp)]
  refine Prod.ext ?_ rfl
  refine LoadState.ext rfl ?_ rfl rfl rfl
  funext u
  by_cases hu : u = url <;> simp [hu]

/-- Specification of the queue-draining loop: callbacks are served in FIFO
order, each with a freshly allocated clone; clone identities are at least
the starting allocator value and pairwise distinct; the cache is
untouched. -/
lemma processQueueGo_spec (cbs : List Nat) :
    ∀ s : LoadState,
      (processQueueGo cbs s).2.map Invocation.cb = cbs
      ∧ (∀ inv ∈ (processQueueGo cbs s).2, ∃ k, inv.arg = .node k ∧ s.nextNode ≤ k)
      ∧ (processQueueGo cbs s).2.Pairwise (fun a b => a.arg ≠ b.arg)
      ∧ (processQueueGo cbs s).1.cache = s.cache := by
  induction cbs with
  | nil => intro s; simp [processQueueGo]
  | cons cb rest ih =>
    intro s
    obtain ⟨h1, h2, h3, h4⟩ := ih { s with nextNode := s.nextNode + 1 }
    have h2' : ∀ inv ∈ (processQueueGo rest { s with nextNode := s.nextNode + 1 }).2,
        ∃ k, inv.arg = .node k ∧ s.nextNode + 1 ≤ k := h2
    refine ⟨by simpa [processQueueGo] using h1, ?_, ?_, by simpa [processQueueGo] using h4⟩
    · intro inv hinv
      simp only [processQueueGo, List.mem_cons] at hinv
      rcases hinv with h | h
      · exact ⟨s.nextNode, by simp [h], le_refl _⟩
      · obtain ⟨k, hk, hk2⟩ := h2' inv h
        exact ⟨k, hk, by omega⟩
    · simp only [processQueueGo, List.pairwise_cons]
      refine ⟨?_, h3⟩
      intro b hb
      obtain ⟨k, hk, hk2⟩ := h2' b hb
      simp only [hk]
      intro hcontr
      have : s.nextNode = k := LoadArg.node.inj hcontr
      omega

/-- On XHR success every queued callback is served in FIFO order with a
clone distinct from the freshly cached canonical node, and the clones are
pairwise distinct. -/
lemma resolveSuccess_spec (url : String) (s : LoadState) :
    (resolveSuccess url s).1.cache url = .ready s.nextNode
    ∧ (resolveSuccess url s).2.map Invocation.cb = s.queue url
    ∧ (∀ inv ∈ (resolveSuccess url s).2, ∃ k, inv.arg = .node k ∧ k ≠ s.nextNode)
    ∧ (resolveSuccess url s).2.Pairwise (fun a b => a.arg ≠ b.arg) := by
  have hq : (cacheReady url s).queue url = s.queue url := rfl
  have hn : (cacheReady url s).nextNode = s.nextNode + 1 := rfl
  simp only [resolveSuccess, processRequestQueue]
  obtain ⟨g1, g2, g3, g4⟩ :=
    processQueueGo_spec ((cacheReady url s).queue url) (cacheReady url s)
  refine ⟨?_, by rw [hq] at g1 ⊢; exact g1, ?_, g3⟩
  · rw [congrFun g4 url]
    simp [cacheReady]
  · intro inv hinv
    obtain ⟨k, hk, hk2⟩ := g2 inv hinv
    rw [hn] at hk2
    exact ⟨k, hk, by omega⟩

/-- **C1** — request coalescing.  From an Absent key with an empty queue,
N ≥ 1 consumers calling `loadSvg` before resolution trigger exactly one
fetch and no synchronous invocation; on successful resolution every queued
continuation is invoked exactly once, in enqueue order, each receiving a
clone whose node identity differs from the canonical cached node and from
every other consumer's clone. -/
theorem c1_coalesced_requests_unique_clones
    (url : String) (cb0 : Nat) (rest : List Nat) (s : LoadState)
    (hA : s.cache url = .absent) (hQ : s.queue url = []) :
    (loadAll url (cb0 :: rest) s).1.fetchCount url = s.fetchCount url + 1
    ∧ (loadAll url (cb0 :: rest) s).2 = []
    ∧ (resolveSuccess url (loadAll url (cb0 :: rest) s).1).2.map Invocation.cb = cb0 :: rest
    ∧ (resolveSuccess url (loadAll url (cb0 :: rest) s).1).1.cache url =
        .ready (loadAll url (cb0 :: rest) s).1.nextNode
    ∧ (∀ inv ∈ (resolveSuccess url (loadAll url (cb0 :: rest) s).1).2,
         ∃ k, inv.arg = .node k ∧ k ≠ (loadAll url (cb0 :: rest) s).1.nextNode)
    ∧ (resolveSuccess url (loadAll url (cb0 :: rest) s).1).2.Pairwise
        (fun a b => a.arg ≠ b.arg) := by
  rw [loadAll_absent url cb0 rest s hA]
  obtain ⟨r1, r2, r3, r4⟩ := resolveSuccess_spec url
    { s with
        cache := fun u => if u = url then .pending else s.cache u,
        queue := fun u => if u = url then s.queue u ++ cb0 :: rest else s.queue u,
        inflight := fun u => if u = url then some cb0 else s.inflight u,
        fetchCount := fun u => if u = url then s.fetchCount u + 1 else s.fetchCount u }
  refine ⟨by simp, rfl, ?_, r1, r3, r4⟩
  rw [r2]
  simp [hQ]

/-- Witness for C1 at a concrete input. -/
theorem c1_coalesced_requests_unique_clones_witness :
    (loadAll "shared.svg" [1, 2] s0).1.fetchCount "shared.svg" = s0.fetchCount "shared.svg" + 1
    ∧ (loadAll "shared.svg" [1, 2] s0).2 = []
    ∧ (resolveSuccess "shared.svg" (loadAll "shared.svg" [1, 2] s0).1).2.map Invocation.cb = [1, 2]
    ∧ (resolveSuccess "shared.svg" (loadAll "shared.svg" [1, 2] s0).1).1.cache "shared.svg" =
        .ready (loadAll "shared.svg" [1, 2] s0).1.nextNode
    ∧ (∀ inv ∈ (resolveSuccess "shared.svg" (loadAll "shared.svg" [1, 2] s0).1).2,
         ∃ k, inv.arg = .node k ∧ k ≠ (loadAll "shared.svg" [1, 2] s0).1.nextNode)
    ∧ (resolveSuccess "shared.svg" (loadAll "shared.svg" [1, 2] s0).1).2.Pairwise
        (fun a b => a.arg ≠ b.arg) :=
  c1_coalesced_requests_unique_clones "shared.svg" 1 [2] s0 rfl rfl

/-- A concrete state whose cache already holds `a.svg` (node 0, allocator 1). -/
def sReady : LoadState :=
  { cache := fun u => if u = "a.svg" then .ready 0 else .absent,
    queue := fun _ => [], inflight := fun _ => none,
    fetchCount := fun _ => 0, nextNode := 1 }

/-- **C3, counterexample** — two consumers coalesce on `shared.svg` and the
fetch fails: the whole run invokes only the initiating consumer (callback 1):
the error, then the bare terminal call.  The coalesced consumer (callback 2)
is never invoked with the failure, contradicting the claim that every queued
continuation is invoked with it. -/
theorem c3_counterexample_coalesced_consumer_never_notified :
    (resolveFail404 false "shared.svg" (loadAll "shared.svg" [1, 2] s0).1).2 =
      [⟨1, .err "Unable to load SVG file: shared.svg"⟩, ⟨1, .empty⟩]
    ∧ (∀ inv ∈ (loadAll "shared.svg" [1, 2] s0).2 ++
          (resolveFail404 false "shared.svg" (loadAll "shared.svg" [1, 2] s0).1).2,
        inv.cb ≠ 2) := by
  constructor
  · rfl
  · decide

/-- **C3, amended** — on fetch failure only the continuation of the caller
that initiated the fetch is invoked (the error message, an informational
note when running locally, then a bare call); the coalesced continuations
are never invoked at all, and the cache entry for the key stays Pending. -/
theorem c3_amended_only_initiator_notified
    (isLocal : Bool) (url : String) (cb0 : Nat) (rest : List Nat) (s : LoadState)
    (hA : s.cache url = .absent) :
    (resolveFail404 isLocal url (loadAll url (cb0 :: rest) s).1).2 =
      ⟨cb0, .err ("Unable to load SVG file: " ++ url)⟩ ::
        ((if isLocal then
            [⟨cb0, .err "Note: SVG injection ajax calls do not work locally without adjusting security setting in your browser. Or consider using a local webserver."⟩]
          else []) ++ [⟨cb0, .empty⟩])
    ∧ (∀ inv ∈ (loadAll url (cb0 :: rest) s).2 ++
          (resolveFail404 isLocal url (loadAll url (cb0 :: rest) s).1).2,
        inv.cb = cb0)
    ∧ (resolveFail404 isLocal url (loadAll url (cb0 :: rest) s).1).1.cache url = .pending := by
  rw [loadAll_absent url cb0 rest s hA]
  refine ⟨by simp [resolveFail404], ?_, by simp [resolveFail404]⟩
  intro inv hinv
  rcases isLocal with _ | _ <;>
  · simp [resolveFail404] at hinv
    rcases hinv with rfl | rfl | rfl <;> rfl

/-- Witness for the amended C3 at a concrete input. -/
theorem c3_amended_only_initiator_notified_witness :
    (resolveFail404 false "shared.svg" (loadAll "shared.svg" [4, 5] s0).1).2 =
      ⟨4, .err ("Unable to load SVG file: " ++ "shared.svg")⟩ ::
        ((if false then
            [⟨4, .err "Note: SVG injection ajax calls do not work locally without adjusting security setting in your browser. Or consider using a local webserver."⟩]
          else []) ++ [⟨4, .empty⟩])
    ∧ (∀ inv ∈ (loadAll "shared.svg" [4, 5] s0).2 ++
          (resolveFail404 false "shared.svg" (loadAll "shared.svg" [4, 5] s0).1).2,
        inv.cb = 4)
    ∧ (resolveFail404 false "shared.svg"
        (loadAll "shared.svg" [4, 5] s0).1).1.cache "shared.svg" = .pending :=
  c3_amended_only_initiator_notified false "shared.svg" 4 [5] s0 rfl

/-- **C4, counterexample** — a request against a Ready key: the continuation
is invoked synchronously inside the `loadSvg` call (src/index.js line 52),
contradicting the claim that it is never invoked within the caller's call
stack. -/
theorem c4_counterexample_cache_hit_is_synchronous :
    (loadSvg true "a.svg" 7 sReady).2 = [⟨7, .node 1⟩]
    ∧ (loadSvg true "a.svg" 7 sReady).2 ≠ [] := by
  constructor
  · rfl
  · decide

/-- **C4, amended** — for a Ready key the continuation is invoked
synchronously, within the caller's call stack, with a freshly cloned node;
the clone is distinct from the canonical cached node whenever the allocator
is ahead of it.  Only fetch-resolution deliveries go through the deferred
`setTimeout` queue. -/
theorem c4_amended_ready_key_synchronous_clone
    (url : String) (cb n : Nat) (s : LoadState) (hR : s.cache url = .ready n)
    (hfresh : n < s.nextNode) :
    loadSvg true url cb s = ({ s with nextNode := s.nextNode + 1 }, [⟨cb, .node s.nextNode⟩])
    ∧ LoadArg.node s.nextNode ≠ LoadArg.node n := by
  refine ⟨by simp [loadSvg, hR], ?_⟩
  intro h
  have := LoadArg.node.inj h
  omega

/-- Witness for the amended C4 at a concrete input. -/
theorem c4_amended_ready_key_synchronous_clone_witness :
    loadSvg true "a.svg" 7 sReady =
      ({ sReady with nextNode := sReady.nextNode + 1 }, [⟨7, .node sReady.nextNode⟩])
    ∧ LoadArg.node sReady.nextNode ≠ LoadArg.node 0 :=
  c4_amended_ready_key_synchronous_clone "a.svg" 7 0 sReady rfl (by decide)

/-! ## The fetched SVG tree (model)

The injected pipeline touches four aspects of the parsed tree: the root
attributes, the identified elements under a `defs` scope (per IRI-capable
category), the attributes that can reference them, and the embedded
`script` and `style` elements.  Lists are kept in document order. -/

/-- An embedded script element: its `type` attribute (absent = `none`),
its textual payload, whether it is a direct child of the root (only then
can `svg.removeChild` succeed), and whether executing the payload throws
(the embedding of what `new Function(payload)(window)` does). -/
structure Script where
  declType : Option String
  payload : String
  directChild : Bool
  throws : Bool
deriving DecidableEq, Repr

structure Svg where
  /-- root attributes, by name. -/
  rootAttrs : List (String × String)
  /-- identified elements under a `defs` scope: (tag name, id), document order. -/
  defsIds : List (String × String)
  /-- attributes that may hold internal references: (attribute name, value),
  document order, over the whole tree. -/
  refs : List (String × String)
  /-- embedded script elements, document order. -/
  scripts : List Script
  /-- textual contents of embedded style elements, document order. -/
  styles : List String
deriving DecidableEq, Repr

/-- `setAttribute` on an attribute list: overwrite or append. -/
def setKV : List (String × String) → String → String → List (String × String)
  | [], k, v => [(k, v)]
  | (k', v') :: t, k, v =>
    if k' = k then (k, v) :: t else (k', v') :: setKV t k v

/-- `removeAttribute` on an attribute list. -/
def removeKV : List (String × String) → String → List (String × String)
  | [], _ => []
  | (k', v') :: t, k => if k' = k then removeKV t k else (k', v') :: removeKV t k

def setAttr (svg : Svg) (k v : String) : Svg :=
  { svg with rootAttrs := setKV svg.rootAttrs k v }

/-- Lines 227-229: stretch the clone to fit the parent node. -/
def setRootSizing (svg : Svg) : Svg :=
  setAttr (setAttr (setAttr svg "width" "100%") "height" "100%") "preserveAspectRatio" "none"

/-- Line 256: `svg.removeAttribute` of the editor-added namespace. -/
def removeXmlnsA (svg : Svg) : Svg :=
  { svg with rootAttrs := removeKV svg.rootAttrs "xmlns:a" }

/-! ## IdRewriter (src/index.js lines 154-253) -/

/-- `iriElementsAndProperties` (lines 156-166): IRI-addressable element
tags mapped to the attributes that can reference them, in the fixed
`Object.keys` iteration order of the source. -/
def iriElementsAndProperties : List (String × List String) :=
  [("clipPath", ["clip-path"]),
   ("color-profile", ["color-profile"]),
   ("cursor", ["cursor"]),
   ("filter", ["filter"]),
   ("linearGradient", ["fill", "stroke"]),
   ("marker", ["marker", "marker-start", "marker-mid", "marker-end"]),
   ("mask", ["mask"]),
   ("pattern", ["fill", "stroke"]),
   ("radialGradient", ["fill", "stroke"])]

/-- Whether a tag is one of the IRI-addressable categories. -/
def isIriTag (tag : String) : Bool :=
  iriElementsAndProperties.any (fun e => e.1 == tag)

/-- Lines 243-249 for one definition id: every attribute named by one of
the category's properties whose value contains the old id as a substring
(the `*=` selector) is rewritten wholesale to `url(#newId)`. -/
def processId (props : List String) (newId currentId : String)
    (refs : List (String × String)) : List (String × String) :=
  refs.map fun pv =>
    if props.contains pv.1 && containsStr pv.2 currentId then
      (pv.1, "url(#" ++ newId ++ ")")
    else pv

/-- Lines 237-252, reference-rewriting part: the category's definition ids
are processed sequentially in document order, each rewrite seeing the
attribute values produced by the previous ones. -/
def rewriteRefsForIds (props : List String) (cnt : Nat) :
    List String → List (String × String) → List (String × String)
  | [], refs => refs
  | id :: rest, refs =>
    rewriteRefsForIds props cnt rest (processId props (id ++ "-" ++ natRepr cnt) id refs)

/-- One category pass (lines 232-253).  The source interleaves the rename
of each definition element (`elementDefs[i].id = newId`, line 251) with
the reference rewriting; the rename touches only the `id` attribute, which
the `[prop*=...]` reference queries never read, so renaming all of the
category's definition ids after the reference pass is observationally the
same fold. -/
def processCategory (cnt : Nat) (svg : Svg) (cat : String) (props : List String) : Svg :=
  { svg with
      refs := rewriteRefsForIds props cnt
        ((svg.defsIds.filter (fun p => p.1 == cat)).map (fun p => p.2)) svg.refs,
      defsIds := svg.defsIds.map
        (fun p => if p.1 == cat then (p.1, p.2 ++ "-" ++ natRepr cnt) else p) }

/-- The whole IdRewriter (lines 232-253): one pass per category, in the
fixed table order, with the current `injectCount` as suffix source. -/
def iriRewrite (cnt : Nat) (svg : Svg) : Svg :=
  iriElementsAndProperties.foldl (fun s c => processCategory cnt s c.1 c.2) svg

/-! ## ScriptRunner (src/index.js lines 258-299) -/

/-- Line 271: a script participates when its declared type is absent,
empty, or one of the two recognized executable media types. -/
def scriptTypeMatches : Option String → Bool
  | none => true
  | some t => t == "" || t == "application/ecmascript" || t == "application/javascript"

/-- Lines 262-282: walk every script element of the tree in document
order; matched ones have their payload captured and are then removed via
`svg.removeChild`, which throws `NotFoundError` when the script is not a
direct child of the root.  Returns the captured scripts and the scripts
remaining in the tree, or the thrown error. -/
def pruneScripts : List Script → Except String (List Script × List Script)
  | [] => .ok ([], [])
  | s :: rest =>
    if scriptTypeMatches s.declType then
      if s.directChild then
        match pruneScripts rest with
        | .error e => .error e
        | .ok (cap, rem) => .ok (s :: cap, rem)
      else .error "NotFoundError: svg.removeChild called with a non-child script element"
    else
      match pruneScripts rest with
      | .error e => .error e
      | .ok (cap, rem) => .ok (cap, s :: rem)

/-- Lines 286-295: execute the captured payloads in order.  Returns the
payloads that completed and the exception of the first one that threw,
if any; a throw stops the loop (there is no try/catch around the
`new Function(...)(window)` call). -/
def runPayloadList : List Script → List String × Option String
  | [] => ([], none)
  | s :: rest =>
    if s.throws then ([], some ("ScriptExecutionError: " ++ s.payload))
    else
      let r := runPayloadList rest
      (s.payload :: r.1, r.2)

/-- Lines 285-299: the execution guard and the `ranScripts` record.
Returns (payloads executed to completion, exception if one threw, updated
record).  Note `ranScripts[imgUrl] = true` (line 298) runs only after the
whole loop, so a throw leaves the record unchanged. -/
def evalScriptsStep (evalScripts url : String) (ranScripts : String → Bool)
    (captured : List Script) : List String × Option String × (String → Bool) :=
  if captured.length > 0 &&
      (evalScripts == "always" || (evalScripts == "once" && !(ranScripts url))) then
    match runPayloadList captured with
    | (ex, some e) => (ex, some e, ranScripts)
    | (ex, none) => (ex, none, fun u => if u = url then true else ranScripts u)
  else ([], none, ranScripts)

/-- Lines 306-309: the IE style-refresh workaround appends the empty
string to every embedded style payload. -/
def styleWorkaround (svg : Svg) : Svg :=
  { svg with styles := svg.styles.map (fun t => t ++ "") }

/-! ## Orchestrator and InjectionTracker (src/index.js lines 174-324) -/

/-- Host environment facts read at module load (lines 11-12) plus XHR
availability (line 61). -/
structure Env where
  hasSvgSupport : Bool
  isLocal : Bool
deriving DecidableEq, Repr

/-- A placeholder element: identity (for the `injectedElements` indexOf
membership test), its attributes, and whether it currently has a parent
node (needed by the final `el.parentNode.replaceChild`). -/
structure Elem where
  id : Nat
  dataSrc : Option String
  dataPng : Option String
  src : String
  styleAttr : Option String
  hasParent : Bool
deriving DecidableEq, Repr

/-- Module-level mutable state of the orchestrator: `injectCount`
(line 17), `injectedElements` (line 18, a JS array mutated with `push` and
`delete`, so a slot can hold a hole), `ranScripts` (line 24). -/
structure InjectorState where
  injectCount : Nat
  injectedElements : List (Option Nat)
  ranScripts : String → Bool

/-- ASCII lower-casing of one character (the case fold the `/i` regex
flag performs on the pattern letters). -/
def charLower (c : Char) : Char :=
  if 65 ≤ c.toNat ∧ c.toNat ≤ 90 then Char.ofNat (c.toNat + 32) else c

/-- `(/\.svg/i).test(imgUrl)` (line 184): case-insensitive substring
search, not an extension check. -/
def svgExtTest (url : String) : Bool :=
  containsSub ".svg".data (url.data.map charLower)

/-- `delete injectedElements[injectedElements.indexOf(el)]` (line 316):
the first matching slot becomes a hole; nothing happens when the element
is not present (indexOf yields -1). -/
def removeElem : List (Option Nat) → Nat → List (Option Nat)
  | [], _ => []
  | x :: t, e => if x = some e then none :: t else x :: removeElem t e

/-- Result of the synchronous part of `SVGInjector` (lines 174-219). -/
inductive SyncOutcome where
  | errCallback (msg : String)
  | fallback (el : Elem)
  | noEffect
  | proceed (el : Elem) (st : InjectorState) (url : String)

/-- `SVGInjector` up to the `loadSvg` call (lines 174-219): extension
check, SVG-support check with png fallback, tracker dedupe, tracker
insertion and the clearing of the `src` attribute.  A `getAttribute` miss
yields JS `null`, which the regex test coerces to the string `"null"`. -/
def injectStart (env : Env) (el : Elem) (st : InjectorState) : SyncOutcome :=
  let imgUrl := el.dataSrc.getD "null"
  if !(svgExtTest imgUrl) then
    .errCallback ("Attempted to inject a file with a non-svg extension: " ++ imgUrl)
  else if !env.hasSvgSupport then
    match el.dataPng with
    | some png =>
      .fallback { el with styleAttr := some "width: 100%; height: 100%;", src := png }
    | none => .errCallback "This browser does not support SVG and no PNG fallback was defined."
  else if st.injectedElements.contains (some el.id) then .noEffect
  else
    .proceed { el with src := "" }
      { st with injectedElements := st.injectedElements ++ [some el.id] } imgUrl

/-- What `loadSvg` hands the continuation: `undefined` or an error string
(modelled as `err`), or a cloned node. -/
inductive LoadResult where
  | err (msg : Option String)
  | node (svg : Svg)
deriving DecidableEq, Repr

/-- Outcome of the `loadSvg` continuation (lines 219-323): the error
callback (tracker untouched), an uncaught exception escaping the
continuation (pipeline dead: no tree replacement, no callback, no tracker
cleanup), or success (`callback(null, svg)` after the tree replacement).
`executed` lists the script payloads that ran to completion. -/
inductive InjectResult where
  | errCallback (msg : Option String) (st : InjectorState) (executed : List String)
  | thrown (exn : String) (st : InjectorState) (executed : List String)
  | success (svg : Svg) (st : InjectorState) (executed : List String)

/-- The `loadSvg` continuation of `SVGInjector` (lines 219-323): error
forwarding, root sizing, IdRewriter, namespace cleanup, script pruning and
conditional execution, style workaround, tree replacement, tracker removal
and `injectCount` increment. -/
def injectFinish (evalScripts url : String) (el : Elem) (st : InjectorState) :
    LoadResult → InjectResult
  | .err m => .errCallback m st []
  | .node svg0 =>
    let svg1 := setRootSizing svg0
    let svg2 := iriRewrite st.injectCount svg1
    let svg3 := removeXmlnsA svg2
    match pruneScripts svg3.scripts with
    | .error e => .thrown e st []
    | .ok (captured, remaining) =>
      let svg4 : Svg := { svg3 with scripts := remaining }
      let r := evalScriptsStep evalScripts url st.ranScripts captured
      match r.2.1 with
      | some e => .thrown e { st with ranScripts := r.2.2 } r.1
      | none =>
        let st1 : InjectorState := { st with ranScripts := r.2.2 }
        let svg5 := styleWorkaround svg4
        if el.hasParent then
          .success svg5
            { st1 with
                injectedElements := removeElem st1.injectedElements el.id,
                injectCount := st1.injectCount + 1 } r.1
        else
          .thrown "TypeError: cannot read replaceChild of null (el.parentNode)" st1 r.1

/-! ## Identifier-suffix uniqueness

`newId = currentId + '-' + injectCount` (line 239): two different counter
values always produce different suffixed identifiers, whatever the base
identifiers are, because the characters after the last dash are exactly
the decimal rendering of the counter. -/

/-- Decimal re-parsing, inverse to `natReprCore`. -/
def parseDec (l : List Char) : Nat :=
  l.foldl (fun a c => 10 * a + (c.toNat - 48)) 0

lemma digitChar_toNat (d : Nat) (h : d < 10) : (digitChar d).toNat = 48 + d := by
  interval_cases d <;> decide

lemma digitChar_ne_dash (d : Nat) (h : d < 10) : digitChar d ≠ '-' := by
  interval_cases d <;> decide

lemma natReprCore_no_dash : ∀ (fuel n : Nat), ∀ c ∈ natReprCore fuel n, c ≠ '-' := by
  intro fuel
  induction fuel with
  | zero => intro n c hc; simp [natReprCore] at hc
  | succ fuel ih =>
    intro n c hc
    by_cases h : n < 10
    · simp [natReprCore, h] at hc
      rw [hc]
      exact digitChar_ne_dash n h
    · simp [natReprCore, h] at hc
      rcases hc with hc | hc
      · exact ih _ c hc
      · rw [hc]
        exact digitChar_ne_dash _ (Nat.mod_lt _ (by omega))

lemma parseDec_append_digit (a : List Char) (c : Char) :
    parseDec (a ++ [c]) = 10 * parseDec a + (c.toNat - 48) := by
  simp [parseDec, List.foldl_append]

lemma parseDec_natReprCore : ∀ (fuel n : Nat), n < 10 ^ fuel →
    parseDec (natReprCore fuel n) = n := by
  intro fuel
  induction fuel with
  | zero => intro n h; interval_cases n; rfl
  | succ fuel ih =>
    intro n h
    by_cases h10 : n < 10
    · simp [natReprCore, h10, parseDec, digitChar_toNat n h10]
    · have hdiv : n / 10 < 10 ^ fuel := by
        rw [Nat.pow_succ] at h
        omega
      simp only [natReprCore, h10, if_false]
      rw [parseDec_append_digit, ih _ hdiv, digitChar_toNat _ (Nat.mod_lt _ (by omega))]
      omega

lemma natRepr_injective {n m : Nat} (h : natRepr n = natRepr m) : n = m := by
  have hn : n < 10 ^ (n + 1) :=
    lt_of_lt_of_le (Nat.lt_pow_self (by norm_num) n)
      (Nat.pow_le_pow_right (by norm_num) (by omega))
  have hm : m < 10 ^ (m + 1) :=
    lt_of_lt_of_le (Nat.lt_pow_self (by norm_num) m)
      (Nat.pow_le_pow_right (by norm_num) (by omega))
  have hd : natReprCore (n + 1) n = natReprCore (m + 1) m := congrArg String.data h
  have := parseDec_natReprCore (n + 1) n hn
  rw [hd, parseDec_natReprCore (m + 1) m hm] at this
  omega

lemma natRepr_no_dash (n : Nat) : ∀ c ∈ (natRepr n).data, c ≠ '-' :=
  natReprCore_no_dash (n + 1) n

/-- The characters after the last dash. -/
def afterLastDash (l : List Char) : List Char :=
  (l.reverse.takeWhile (fun c => c != '-')).reverse

lemma takeWhile_append_stop (p : Char → Bool) (y : Char) (hy : p y = false) :
    ∀ (xs ys : List Char), (∀ x ∈ xs, p x = true) →
      (xs ++ y :: ys).takeWhile p = xs := by
  intro xs
  induction xs with
  | nil => intro ys _; simp [List.takeWhile, hy]
  | cons x t ih =>
    intro ys hall
    have hx : p x = true := hall x (by simp)
    simp only [List.cons_append, List.takeWhile, hx]
    rw [List.append_eq, ih ys (fun z hz => hall z (by simp [hz]))]

lemma afterLastDash_append (a r : List Char) (h : ∀ c ∈ r, c ≠ '-') :
    afterLastDash (a ++ '-' :: r) = r := by
  unfold afterLastDash
  rw [List.reverse_append, List.reverse_cons]
  have hshape : (r.reverse ++ ['-']) ++ a.reverse = r.reverse ++ '-' :: a.reverse := by
    simp
  have hall : ∀ x ∈ r.reverse, (fun c => c != '-') x = true := by
    intro x hx
    have : x ≠ '-' := h x (by simpa using hx)
    simpa using this
  rw [hshape, takeWhile_append_stop _ '-' (by decide) _ _ hall, List.reverse_reverse]

/-- Two suffixed identifiers built from different counter values are never
equal, whatever the base identifiers are. -/
lemma suffixed_ne (id1 id2 : String) (n m : Nat) (hnm : n ≠ m) :
    id1 ++ "-" ++ natRepr n ≠ id2 ++ "-" ++ natRepr m := by
  intro h
  have hd : (id1 ++ "-" ++ natRepr n).data = (id2 ++ "-" ++ natRepr m).data := by rw [h]
  have e1 : (id1 ++ "-" ++ natRepr n).data = id1.data ++ '-' :: (natRepr n).data := by
    simp [String.data_append]
  have e2 : (id2 ++ "-" ++ natRepr m).data = id2.data ++ '-' :: (natRepr m).data := by
    simp [String.data_append]
  rw [e1, e2] at hd
  have := congrArg afterLastDash hd
  rw [afterLastDash_append _ _ (natRepr_no_dash n),
      afterLastDash_append _ _ (natRepr_no_dash m)] at this
  exact hnm (natRepr_injective (String.ext this))

/-! ## What the IdRewriter does to the definition ids -/

/-- Pointwise effect of the category passes on one definition entry. -/
def renameIfCat (cats : List String) (cnt : Nat) (p : String × String) : String × String :=
  if p.1 ∈ cats then (p.1, p.2 ++ "-" ++ natRepr cnt) else p

lemma renameIfCat_fst (cats : List String) (cnt : Nat) (p : String × String) :
    (renameIfCat cats cnt p).1 = p.1 := by
  unfold renameIfCat; split <;> rfl

/-- One category pass composed with the remaining passes acts like a
single pass over the extended category list, provided the processed
category name does not recur. -/
lemma renameIfCat_step (c1 : String) (cs : List String) (cnt : Nat)
    (hnotin : c1 ∉ cs) (p : String × String) :
    renameIfCat cs cnt (if p.1 == c1 then (p.1, p.2 ++ "-" ++ natRepr cnt) else p) =
      renameIfCat (c1 :: cs) cnt p := by
  by_cases hp : p.1 = c1
  · rw [if_pos (by simp [hp])]
    unfold renameIfCat
    rw [if_neg (by simpa [hp] using hnotin), if_pos (by simp [hp])]
  · rw [if_neg (by simp [hp])]
    unfold renameIfCat
    by_cases hm : p.1 ∈ cs
    · rw [if_pos hm, if_pos (by simp [hm])]
    · rw [if_neg hm, if_neg (by simp [hp, hm])]

/-- Folding the category passes over a table with pairwise-distinct
category names suffixes each matching definition id exactly once. -/
lemma foldl_defsIds (cnt : Nat) :
    ∀ (cs : List (String × List String)) (svg : Svg), (cs.map Prod.fst).Nodup →
      (cs.foldl (fun s c => processCategory cnt s c.1 c.2) svg).defsIds =
        svg.defsIds.map (renameIfCat (cs.map Prod.fst) cnt) := by
  intro cs
  induction cs with
  | nil =>
    intro svg _
    simp only [List.foldl_nil, List.map_nil]
    have h1 : svg.defsIds.map (renameIfCat [] cnt) = svg.defsIds.map id :=
      List.map_congr_left (fun p _ => by simp [renameIfCat])
    rw [h1, List.map_id]
  | cons c cs ih =>
    intro svg hnd
    have hnotin : c.1 ∉ cs.map Prod.fst := by
      simp only [List.map_cons, List.nodup_cons] at hnd
      exact hnd.1
    have htail : (cs.map Prod.fst).Nodup := by
      simp only [List.map_cons, List.nodup_cons] at hnd
      exact hnd.2
    simp only [List.foldl_cons]
    rw [ih _ htail]
    have hdefs : (processCategory cnt svg c.1 c.2).defsIds =
        svg.defsIds.map (fun p => if p.1 == c.1 then (p.1, p.2 ++ "-" ++ natRepr cnt) else p) :=
      rfl
    rw [hdefs, List.map_map]
    refine List.map_congr_left ?_
    intro p _
    exact renameIfCat_step c.1 (cs.map Prod.fst) cnt hnotin p

/-- The set of identifiers the rewriter renames: ids of defs-scoped
elements whose tag is one of the IRI-addressable categories. -/
def rewrittenIds (svg : Svg) : List String :=
  (svg.defsIds.filter (fun p => isIriTag p.1)).map (fun p => p.2)

lemma isIriTag_iff_mem (t : String) :
    isIriTag t = true ↔ t ∈ iriElementsAndProperties.map Prod.fst := by
  simp [isIriTag, List.any_eq_true]

/-- After a rewrite pass with counter `cnt`, the renamed identifiers are
exactly the original in-category ids, each suffixed with `-cnt`. -/
lemma rewrittenIds_iriRewrite (cnt : Nat) (svg : Svg) :
    rewrittenIds (iriRewrite cnt svg) =
      (svg.defsIds.filter (fun p => isIriTag p.1)).map
        (fun p => p.2 ++ "-" ++ natRepr cnt) := by
  have hnodup : (iriElementsAndProperties.map Prod.fst).Nodup := by decide
  unfold rewrittenIds iriRewrite
  rw [foldl_defsIds cnt iriElementsAndProperties svg hnodup, List.filter_map]
  have hfilter :
      svg.defsIds.filter
          ((fun q : String × String => isIriTag q.1) ∘
            renameIfCat (iriElementsAndProperties.map Prod.fst) cnt) =
        svg.defsIds.filter (fun q => isIriTag q.1) := by
    refine List.filter_congr ?_
    intro q _
    simp [renameIfCat_fst]
  rw [hfilter, List.map_map]
  refine List.map_congr_left ?_
  intro q hq
  have hmem : q.1 ∈ iriElementsAndProperties.map Prod.fst := by
    rw [← isIriTag_iff_mem]
    exact (List.mem_filter.mp hq).2
  simp only [Function.comp_apply, renameIfCat, if_pos hmem]

/-- Renamed identifier sets from two different counter values are
disjoint, for every tree. -/
lemma rewrittenIds_disjoint (n m : Nat) (hnm : n ≠ m) (svg : Svg) :
    ∀ x ∈ rewrittenIds (iriRewrite n svg), x ∉ rewrittenIds (iriRewrite m svg) := by
  intro x hx hy
  rw [rewrittenIds_iriRewrite] at hx hy
  simp only [List.mem_map] at hx hy
  obtain ⟨p, _, rfl⟩ := hx
  obtain ⟨q, _, heq⟩ := hy
  exact suffixed_ne q.2 p.2 m n (fun h => hnm h.symm) heq

/-- A category pass over a tree whose single defs entry belongs to a
different category changes nothing: the pass finds no definition ids, so
it rewrites no references and renames nothing. -/
lemma processCategory_single_nomatch (cnt : Nat) (cat c1 : String) (props1 : List String)
    (id : String) (ra rf : List (String × String)) (sc : List Script) (stl : List String)
    (h : (cat == c1) = false) :
    processCategory cnt ⟨ra, [(cat, id)], rf, sc, stl⟩ c1 props1 =
      ⟨ra, [(cat, id)], rf, sc, stl⟩ := by
  simp [processCategory, rewriteRefsForIds, h]
  intro hc
  exact absurd hc (beq_eq_false_iff_ne.mp h)

/-- The category pass matching the tree's single defs entry rewrites the
matching references to the suffixed id and renames the definition. -/
lemma processCategory_single_match (cnt : Nat) (cat : String) (props : List String)
    (id : String) (ra rf : List (String × String)) (sc : List Script) (stl : List String) :
    processCategory cnt ⟨ra, [(cat, id)], rf, sc, stl⟩ cat props =
      ⟨ra, [(cat, id ++ "-" ++ natRepr cnt)],
        processId props (id ++ "-" ++ natRepr cnt) id rf, sc, stl⟩ := by
  simp [processCategory, rewriteRefsForIds]

/-- Category passes whose names all differ from the tree's single defs
entry leave the whole tree untouched. -/
lemma fold_single_notmem (cnt : Nat) (cat id : String) :
    ∀ (cs : List (String × List String)), cat ∉ cs.map Prod.fst →
      ∀ (ra rf : List (String × String)) (sc : List Script) (stl : List String),
        cs.foldl (fun s c => processCategory cnt s c.1 c.2) ⟨ra, [(cat, id)], rf, sc, stl⟩ =
          ⟨ra, [(cat, id)], rf, sc, stl⟩ := by
  intro cs
  induction cs with
  | nil => intro _ ra rf sc stl; rfl
  | cons c cs ih =>
    intro hnot ra rf sc stl
    have hne : (cat == c.1) = false := by
      simp only [List.map_cons, List.mem_cons, not_or] at hnot
      simp [hnot.1]
    rw [List.foldl_cons, processCategory_single_nomatch cnt cat c.1 c.2 id ra rf sc stl hne]
    exact ih (by simp only [List.map_cons, List.mem_cons, not_or] at hnot; exact hnot.2)
      ra rf sc stl

/-- Folding the passes of a duplicate-free category table over a tree with
a single defs entry `(cat, id)`, where `(cat, props)` is in the table,
rewrites the references exactly once: the matching references end up as
`url(#id-cnt)`. -/
lemma fold_single (cnt : Nat) (id : String) :
    ∀ (cs : List (String × List String)) (cat : String) (props : List String)
      (ra rf : List (String × String)) (sc : List Script) (stl : List String),
      (cat, props) ∈ cs → (cs.map Prod.fst).Nodup →
      (cs.foldl (fun s c => processCategory cnt s c.1 c.2) ⟨ra, [(cat, id)], rf, sc, stl⟩).refs =
        processId props (id ++ "-" ++ natRepr cnt) id rf := by
  intro cs
  induction cs with
  | nil => intro cat props ra rf sc stl hmem _; simp at hmem
  | cons c cs ih =>
    intro cat props ra rf sc stl hmem hnd
    have hnotin : c.1 ∉ cs.map Prod.fst := by
      simp only [List.map_cons, List.nodup_cons] at hnd
      exact hnd.1
    have htail : (cs.map Prod.fst).Nodup := by
      simp only [List.map_cons, List.nodup_cons] at hnd
      exact hnd.2
    rcases List.mem_cons.mp hmem with heq | htl
    · obtain rfl : c = (cat, props) := heq.symm
      rw [List.foldl_cons, processCategory_single_match]
      rw [fold_single_notmem cnt cat (id ++ "-" ++ natRepr cnt) cs hnotin]
    · have hcat : cat ∈ cs.map Prod.fst :=
        List.mem_map.mpr ⟨(cat, props), htl, rfl⟩
      have hne : (cat == c.1) = false := by
        have : cat ≠ c.1 := fun h => hnotin (h ▸ hcat)
        simp [this]
      rw [List.foldl_cons, processCategory_single_nomatch cnt cat c.1 c.2 id ra rf sc stl hne]
      exact ih cat props ra rf sc stl htl htail

/-- For a tree whose only defs-scoped identified element is `(cat, id)`,
the whole 9-pass rewriter acts on the reference attributes as the single
pass for that category and that id: all other passes find no definition
ids and leave the references alone. -/
lemma singleId_refs (cat : String) (props : List String) (id : String)
    (ra : List (String × String)) (rf : List (String × String))
    (sc : List Script) (stl : List String) (cnt : Nat)
    (hmem : (cat, props) ∈ iriElementsAndProperties) :
    (iriRewrite cnt ⟨ra, [(cat, id)], rf, sc, stl⟩).refs =
      processId props (id ++ "-" ++ natRepr cnt) id rf :=
  fold_single cnt id iriElementsAndProperties cat props ra rf sc stl hmem (by decide)

/-- A resource with two clipPath definition ids where one id is a prefix
of the other, each referenced by its own clip-path attribute. -/
def svgCX : Svg :=
  { rootAttrs := [], defsIds := [("clipPath", "c1"), ("clipPath", "c10")],
    refs := [("clip-path", "url(#c1)"), ("clip-path", "url(#c10)")],
    scripts := [], styles := [] }

/-- **C2, counterexample** — the substring-based `[prop*="id"]` reference
query captures references to other identifiers.  In `svgCX` the second
clip-path attribute references `c10` (its value contains `c10`), yet after
the rewrite with counter 0 it holds `url(#c1-0)` and not a reference to
the rewritten identifier `c10-0`: while processing id `c1`, the attribute
value `url(#c10)` matches the substring query for `c1` and is clobbered. -/
theorem c2_counterexample_substring_id_capture :
    containsStr "url(#c10)" "c10" = true
    ∧ rewrittenIds (iriRewrite 0 svgCX) = ["c1-0", "c10-0"]
    ∧ (iriRewrite 0 svgCX).refs = [("clip-path", "url(#c1-0)"), ("clip-path", "url(#c1-0)")]
    ∧ ("url(#c1-0)" : String) ≠ "url(#c10-0)" := by
  decide

/-- **C2, amended** — (i) for every resource, the sets of rewritten
(category-scoped, suffixed) identifiers of two injections with different
ordinal counter values are disjoint; (ii) for a resource with a single
defs-scoped identifier, every referencing attribute of its category whose
value contains that identifier ends up pointing exactly at the tree's own
rewritten identifier. -/
theorem c2_amended_disjoint_ids_single_id_pointing
    (n m : Nat) (hnm : n ≠ m) (svg : Svg)
    (cat : String) (props : List String) (id : String)
    (hmem : (cat, props) ∈ iriElementsAndProperties)
    (hd : svg.defsIds = [(cat, id)]) :
    (∀ svg2 : Svg, ∀ x ∈ rewrittenIds (iriRewrite n svg2), x ∉ rewrittenIds (iriRewrite m svg2))
    ∧ rewrittenIds (iriRewrite n svg) = [id ++ "-" ++ natRepr n]
    ∧ (iriRewrite n svg).refs.length = svg.refs.length
    ∧ ∀ (j : Nat) (hj : j < svg.refs.length) (hj2 : j < (iriRewrite n svg).refs.length),
        props.contains (svg.refs.get ⟨j, hj⟩).1 = true →
        containsStr (svg.refs.get ⟨j, hj⟩).2 id = true →
        (iriRewrite n svg).refs.get ⟨j, hj2⟩ =
          ((svg.refs.get ⟨j, hj⟩).1, "url(#" ++ (id ++ "-" ++ natRepr n) ++ ")") := by
  have hiri : isIriTag cat = true :=
    (isIriTag_iff_mem cat).mpr (List.mem_map.mpr ⟨(cat, props), hmem, rfl⟩)
  obtain ⟨ra, di, rf, sc, stl⟩ := svg
  dsimp only at hd
  subst hd
  have hrefs := singleId_refs cat props id ra rf sc stl n hmem
  refine ⟨fun svg2 => rewrittenIds_disjoint n m hnm svg2, ?_, ?_, ?_⟩
  · rw [rewrittenIds_iriRewrite]
    dsimp only
    simp [hiri]
  · dsimp only
    rw [hrefs]
    simp [processId]
  · intro j hj hj2 hprop hcont
    dsimp only at hprop hcont hj hj2 ⊢
    rw [List.get_of_eq hrefs ⟨j, hj2⟩]
    simp only [processId, List.get_eq_getElem, List.getElem_map] at hprop hcont ⊢
    rw [hprop, hcont]
    simp

/-- The spec's own example resource: one defs-scoped clipPath id `c1`
referenced by one clip-path attribute. -/
def svgC2 : Svg :=
  { rootAttrs := [], defsIds := [("clipPath", "c1")],
    refs := [("clip-path", "url(#c1)")], scripts := [], styles := [] }

/-- Witness for the amended C2 at a concrete input. -/
theorem c2_amended_disjoint_ids_single_id_pointing_witness :
    (∀ svg2 : Svg, ∀ x ∈ rewrittenIds (iriRewrite 0 svg2), x ∉ rewrittenIds (iriRewrite 1 svg2))
    ∧ rewrittenIds (iriRewrite 0 svgC2) = ["c1" ++ "-" ++ natRepr 0]
    ∧ (iriRewrite 0 svgC2).refs.length = svgC2.refs.length
    ∧ ∀ (j : Nat) (hj : j < svgC2.refs.length) (hj2 : j < (iriRewrite 0 svgC2).refs.length),
        (["clip-path"] : List String).contains (svgC2.refs.get ⟨j, hj⟩).1 = true →
        containsStr (svgC2.refs.get ⟨j, hj⟩).2 "c1" = true →
        (iriRewrite 0 svgC2).refs.get ⟨j, hj2⟩ =
          ((svgC2.refs.get ⟨j, hj⟩).1, "url(#" ++ ("c1" ++ "-" ++ natRepr 0) ++ ")") :=
  c2_amended_disjoint_ids_single_id_pointing 0 1 (by decide) svgC2
    "clipPath" ["clip-path"] "c1" (by decide) rfl

/-! ## Pipeline theorems (C5-C10) -/

lemma foldl_scripts (cnt : Nat) :
    ∀ (cs : List (String × List String)) (svg : Svg),
      (cs.foldl (fun s c => processCategory cnt s c.1 c.2) svg).scripts = svg.scripts := by
  intro cs
  induction cs with
  | nil => intro svg; rfl
  | cons c cs ih =>
    intro svg
    rw [List.foldl_cons, ih]
    rfl

/-- The pipeline stages before script pruning (sizing, IdRewriter,
namespace removal) do not touch the script elements. -/
lemma pipeline_scripts (cnt : Nat) (svg : Svg) :
    (removeXmlnsA (iriRewrite cnt (setRootSizing svg))).scripts = svg.scripts := by
  show (iriRewrite cnt (setRootSizing svg)).scripts = svg.scripts
  rw [iriRewrite, foldl_scripts]
  rfl

/-- When a payload throws, the `ranScripts` record is left unchanged
(line 298 runs only after the whole loop). -/
lemma evalScriptsStep_throw_ran (p u : String) (ran : String → Bool)
    (cap : List Script) (e : String)
    (h : (evalScriptsStep p u ran cap).2.1 = some e) :
    (evalScriptsStep p u ran cap).2.2 = ran := by
  rcases hrun : runPayloadList cap with ⟨ex, eopt⟩
  rcases eopt with _ | e2
  · unfold evalScriptsStep at h
    rw [hrun] at h
    split at h <;> simp at h
  · unfold evalScriptsStep
    rw [hrun]
    split <;> rfl

/-- Fixtures for the script-execution theorems. -/
def elP : Elem :=
  { id := 1, dataSrc := some "a.svg", dataPng := none, src := "",
    styleAttr := none, hasParent := true }

def stT : InjectorState :=
  { injectCount := 0, injectedElements := [some 1], ranScripts := fun _ => false }

/-- A tree with two executable scripts, the first of which throws. -/
def svgThrow : Svg :=
  { rootAttrs := [], defsIds := [], refs := [],
    scripts := [⟨none, "boom", true, true⟩, ⟨none, "ok", true, false⟩], styles := [] }

/-- **C5, counterexample** — the first payload throws: the continuation
ends in an uncaught exception, no payload runs to completion (so the
second captured payload is never executed), the tree replacement does not
happen and the success callback is never invoked; the element is still in
the tracker.  There is no try/catch around `new Function(...)(window)`
(src/index.js line 294). -/
theorem c5_counterexample_script_throw_uncaught :
    injectFinish "always" "a.svg" elP stT (.node svgThrow) =
      .thrown "ScriptExecutionError: boom" stT []
    ∧ (∀ svg st ex, injectFinish "always" "a.svg" elP stT (.node svgThrow) ≠
        .success svg st ex) := by
  have heq : injectFinish "always" "a.svg" elP stT (.node svgThrow) =
      .thrown "ScriptExecutionError: boom" stT [] := rfl
  refine ⟨heq, ?_⟩
  intro svg st ex hcontra
  rw [heq] at hcontra
  exact InjectResult.noConfusion hcontra

/-- **C5, amended** — a payload that throws during execution is not
caught: the exception escapes the continuation, the remaining payloads are
not executed, `ranScripts` is not recorded, and the remaining pipeline
steps are skipped — no tree replacement, no tracker cleanup, no counter
increment, no success callback.  The module state is left exactly as it
was. -/
theorem c5_amended_script_throw_aborts_pipeline
    (policy url : String) (el : Elem) (st : InjectorState) (svg : Svg)
    (cap rem : List Script) (e : String)
    (hp : pruneScripts svg.scripts = .ok (cap, rem))
    (he : (evalScriptsStep policy url st.ranScripts cap).2.1 = some e) :
    injectFinish policy url el st (.node svg) =
      .thrown e st (evalScriptsStep policy url st.ranScripts cap).1 := by
  have hs := pipeline_scripts st.injectCount svg
  have hr := evalScriptsStep_throw_ran policy url st.ranScripts cap e he
  simp only [injectFinish, hs, hp]
  simp only [he, hr]

/-- Witness for the amended C5 at a concrete input. -/
theorem c5_amended_script_throw_aborts_pipeline_witness :
    injectFinish "always" "a.svg" elP stT (.node svgThrow) =
      .thrown "ScriptExecutionError: boom" stT
        (evalScriptsStep "always" "a.svg" stT.ranScripts
          [⟨none, "boom", true, true⟩, ⟨none, "ok", true, false⟩]).1 :=
  c5_amended_script_throw_aborts_pipeline "always" "a.svg" elP stT svgThrow
    [⟨none, "boom", true, true⟩, ⟨none, "ok", true, false⟩] [] "ScriptExecutionError: boom"
    rfl rfl

/-- A tree with no scripts at all. -/
def svgPlain : Svg :=
  { rootAttrs := [], defsIds := [], refs := [], scripts := [], styles := [] }

def elNoParent : Elem :=
  { id := 2, dataSrc := some "a.svg", dataPng := none, src := "",
    styleAttr := none, hasParent := false }

def stP : InjectorState :=
  { injectCount := 0, injectedElements := [some 2], ranScripts := fun _ => false }

/-- **C9, counterexample** — the placeholder has no parent at completion
time: `el.parentNode.replaceChild(svg, el)` (line 312) dereferences null
and the continuation ends in an uncaught TypeError instead of completing
as a no-op. -/
theorem c9_counterexample_null_parent_crash :
    injectFinish "always" "a.svg" elNoParent stP (.node svgPlain) =
      .thrown "TypeError: cannot read replaceChild of null (el.parentNode)" stP []
    ∧ (∀ svg st ex, injectFinish "always" "a.svg" elNoParent stP (.node svgPlain) ≠
        .success svg st ex) := by
  have heq : injectFinish "always" "a.svg" elNoParent stP (.node svgPlain) =
      .thrown "TypeError: cannot read replaceChild of null (el.parentNode)" stP [] := rfl
  refine ⟨heq, ?_⟩
  intro svg st ex hcontra
  rw [heq] at hcontra
  exact InjectResult.noConfusion hcontra

/-- **C9, amended** — for an in-flight injection whose placeholder lost
its parent, the final tree-replacement step throws a TypeError (null
`parentNode` dereference); the continuation does not complete: the
callback is never invoked, the element is never removed from the tracker
and the ordinal counter is not incremented. -/
theorem c9_amended_null_parent_throws
    (policy url : String) (el : Elem) (st : InjectorState) (svg : Svg)
    (cap rem : List Script)
    (hp : pruneScripts svg.scripts = .ok (cap, rem))
    (he : (evalScriptsStep policy url st.ranScripts cap).2.1 = none)
    (hnp : el.hasParent = false) :
    injectFinish policy url el st (.node svg) =
      .thrown "TypeError: cannot read replaceChild of null (el.parentNode)"
        { st with ranScripts := (evalScriptsStep policy url st.ranScripts cap).2.2 }
        (evalScriptsStep policy url st.ranScripts cap).1 := by
  have hs := pipeline_scripts st.injectCount svg
  simp only [injectFinish, hs, hp]
  simp only [he, hnp]
  simp

/-- Witness for the amended C9 at a concrete input. -/
theorem c9_amended_null_parent_throws_witness :
    injectFinish "always" "a.svg" elNoParent stP (.node svgPlain) =
      .thrown "TypeError: cannot read replaceChild of null (el.parentNode)"
        { stP with ranScripts := (evalScriptsStep "always" "a.svg" stP.ranScripts []).2.2 }
        (evalScriptsStep "always" "a.svg" stP.ranScripts []).1 :=
  c9_amended_null_parent_throws "always" "a.svg" elNoParent stP svgPlain [] []
    rfl rfl rfl

def env0 : Env := { hasSvgSupport := true, isLocal := false }

def st0 : InjectorState :=
  { injectCount := 0, injectedElements := [], ranScripts := fun _ => false }

/-! ### C7 — the extension check -/

/-- The predicate the claim is phrased with: the locator ends in the given
extension.  (The source tests substring containment instead.) -/
def endsWithStr (s sfx : String) : Bool :=
  hasPrefixCL sfx.data.reverse s.data.reverse

def elBad : Elem :=
  { id := 7, dataSrc := some "icon.svg.png", dataPng := none,
    src := "icon.svg.png", styleAttr := none, hasParent := true }

/-- **C7, counterexample** — `icon.svg.png` does not end in `.svg`, yet
`(/\.svg/i).test` accepts it (substring match), so the injection proceeds:
no `UnsupportedFileType` report, the element is pushed into the tracker
and its `src` attribute is cleared (the document is modified). -/
theorem c7_counterexample_substring_accepts_non_svg_extension :
    endsWithStr "icon.svg.png" ".svg" = false
    ∧ injectStart env0 elBad st0 =
        .proceed { elBad with src := "" }
          { st0 with injectedElements := [some 7] } "icon.svg.png" := by
  exact ⟨by decide, rfl⟩

/-- **C7, amended** — a placeholder whose locator does not contain `.svg`
(case-insensitively) anywhere is rejected with the non-svg-extension
failure string before any mutation: the tracker, the element and the
document are untouched (the error branch precedes every write). -/
theorem c7_amended_no_svg_substring_rejected
    (env : Env) (el : Elem) (st : InjectorState)
    (h : svgExtTest (el.dataSrc.getD "null") = false) :
    injectStart env el st =
      .errCallback
        ("Attempted to inject a file with a non-svg extension: " ++ el.dataSrc.getD "null") := by
  unfold injectStart
  simp [h]

def elPng : Elem :=
  { id := 8, dataSrc := some "icon.png", dataPng := none,
    src := "icon.png", styleAttr := none, hasParent := true }

/-- Witness for the amended C7 at a concrete input. -/
theorem c7_amended_no_svg_substring_rejected_witness :
    injectStart env0 elPng st0 =
      .errCallback
        ("Attempted to inject a file with a non-svg extension: " ++
          (elPng.dataSrc.getD "null")) :=
  c7_amended_no_svg_substring_rejected env0 elPng st0 (by decide)

/-! ### C8 — script pruning at depth -/

/-- An executable (untyped) script sitting below a group element, i.e.
not a direct child of the root. -/
def nestedScript : Script :=
  { declType := none, payload := "alert(1)", directChild := false, throws := false }

def svgNested : Svg :=
  { rootAttrs := [], defsIds := [], refs := [], scripts := [nestedScript], styles := [] }

/-- A script with an unrecognized declared type. -/
def opaqueScript : Script :=
  { declType := some "text/plain", payload := "data", directChild := true, throws := false }

/-- **C8** — the pruning loop matches scripts at any depth
(`querySelectorAll`) but removes them with `svg.removeChild` (line 280),
which throws `NotFoundError` for a script that is not a direct child of
the root: the matched nested script is not removed, the continuation dies.
Unrecognized script types are indeed neither captured nor removed. -/
theorem c8_nested_script_removal_crashes :
    scriptTypeMatches nestedScript.declType = true
    ∧ pruneScripts [nestedScript] =
        .error "NotFoundError: svg.removeChild called with a non-child script element"
    ∧ injectFinish "always" "a.svg" elP stT (.node svgNested) =
        .thrown "NotFoundError: svg.removeChild called with a non-child script element" stT []
    ∧ pruneScripts [opaqueScript] = .ok ([], [opaqueScript]) :=
  ⟨rfl, rfl, rfl, rfl⟩

/-! ### C10 — the ranScripts record under the Always policy -/

/-- Two captured executable payloads: the first completes, the second
throws during execution. -/
def capThrow : List Script :=
  [⟨none, "ok", true, false⟩, ⟨none, "boom", true, true⟩]

/-- **C10, counterexample** — an Always-policy run over `capThrow`
executes at least one captured payload (`"ok"` runs to completion), yet
the key is never recorded in `ranScripts`, because the second payload
throws and `ranScripts[imgUrl] = true` (line 298) sits after the whole
loop.  A subsequent Once-policy injection of the same key therefore finds
no record and executes its payloads again, contradicting the claim that
the key is recorded and the Once run executes none. -/
theorem c10_counterexample_throw_skips_payload_record :
    (evalScriptsStep "always" "k.svg" (fun _ => false) capThrow).1 = ["ok"]
    ∧ (evalScriptsStep "always" "k.svg" (fun _ => false) capThrow).2.2 "k.svg" = false
    ∧ (evalScriptsStep "once" "k.svg"
        (evalScriptsStep "always" "k.svg" (fun _ => false) capThrow).2.2 capThrow).1 = ["ok"]
    ∧ (["ok"] : List String) ≠ [] :=
  ⟨rfl, rfl, rfl, by decide⟩

/-- **C10, amended** — an Always-policy run with at least one captured
payload, none of which throws, records the key in `ranScripts`; a
subsequent Once-policy run for the same key then executes no payload at
all and leaves the record unchanged, even though no Once-policy run ever
preceded it.  The no-throw hypothesis is essential: a throwing payload
skips the recording (see the counterexample above). -/
theorem c10_always_records_and_blocks_once
    (url : String) (ran : String → Bool) (cap cap2 : List Script)
    (h1 : cap ≠ []) (h2 : (runPayloadList cap).2 = none) :
    (evalScriptsStep "always" url ran cap).2.2 url = true
    ∧ evalScriptsStep "once" url (evalScriptsStep "always" url ran cap).2.2 cap2 =
        ([], none, (evalScriptsStep "always" url ran cap).2.2) := by
  have hlen : 0 < cap.length := List.length_pos.mpr h1
  rcases hrun : runPayloadList cap with ⟨ex, eopt⟩
  rw [hrun] at h2
  simp only at h2
  subst h2
  have hstep : evalScriptsStep "always" url ran cap =
      (ex, none, fun u => if u = url then true else ran u) := by
    unfold evalScriptsStep
    rw [if_pos (by simp [hlen]), hrun]
  rw [hstep]
  refine ⟨by simp, ?_⟩
  unfold evalScriptsStep
  rw [if_neg (by simp)]

/-- Witness for C10 at a concrete input. -/
theorem c10_always_records_and_blocks_once_witness :
    (evalScriptsStep "always" "a.svg" (fun _ => false)
        [⟨none, "code", true, false⟩]).2.2 "a.svg" = true
    ∧ evalScriptsStep "once" "a.svg"
        (evalScriptsStep "always" "a.svg" (fun _ => false) [⟨none, "code", true, false⟩]).2.2
        [⟨none, "code", true, false⟩] =
        ([], none,
          (evalScriptsStep "always" "a.svg" (fun _ => false)
            [⟨none, "code", true, false⟩]).2.2) :=
  c10_always_records_and_blocks_once "a.svg" (fun _ => false)
    [⟨none, "code", true, false⟩] [⟨none, "code", true, false⟩] (by decide) rfl

/-! ### C6 — the injection tracker -/

lemma contains_append_self (l : List (Option Nat)) (e : Nat) :
    (l ++ [some e]).contains (some e) = true := by
  induction l with
  | nil => simp
  | cons x t ih => simp [ih]

lemma removeElem_append (l : List (Option Nat)) (e : Nat)
    (h : l.contains (some e) = false) :
    removeElem (l ++ [some e]) e = l ++ [none] := by
  induction l with
  | nil => simp [removeElem]
  | cons x t ih =>
    simp only [List.contains_cons, Bool.or_eq_false_iff] at h
    have hx : ¬ (x = some e) := by
      intro hc
      rw [hc] at h
      simp at h
    simp only [List.cons_append, removeElem, if_neg hx]
    show x :: removeElem (t ++ [some e]) e = x :: (t ++ [none])
    rw [ih h.2]

lemma contains_append_none_false (l : List (Option Nat)) (e : Nat)
    (h : l.contains (some e) = false) :
    (l ++ [none]).contains (some e) = false := by
  induction l with
  | nil => simp
  | cons x t ih =>
    simp only [List.contains_cons, Bool.or_eq_false_iff] at h
    simp only [List.cons_append, List.contains_cons, Bool.or_eq_false_iff]
    exact ⟨h.1, ih h.2⟩

/-- Inversion for the `proceed` outcome of `injectStart`: it happens only
when all three guards pass, and it pushes the element and clears `src`. -/
lemma injectStart_proceed_inv (env : Env) (el : Elem) (st : InjectorState)
    (el1 : Elem) (st1 : InjectorState) (url : String)
    (h : injectStart env el st = .proceed el1 st1 url) :
    svgExtTest (el.dataSrc.getD "null") = true
    ∧ env.hasSvgSupport = true
    ∧ st.injectedElements.contains (some el.id) = false
    ∧ el1 = { el with src := "" }
    ∧ st1 = { st with injectedElements := st.injectedElements ++ [some el.id] }
    ∧ url = el.dataSrc.getD "null" := by
  simp only [injectStart] at h
  by_cases h1 : svgExtTest (el.dataSrc.getD "null") = true
  · rw [if_neg (by simp [h1])] at h
    by_cases h2 : env.hasSvgSupport = true
    · rw [if_neg (by simp [h2])] at h
      by_cases h3 : st.injectedElements.contains (some el.id) = true
      · rw [if_pos h3] at h
        exact SyncOutcome.noConfusion h
      · rw [if_neg h3] at h
        injection h with he hs hu
        exact ⟨h1, h2, by simpa using h3, he.symm, hs.symm, hu.symm⟩
    · rw [if_pos (by simpa using h2)] at h
      rcases hp : el.dataPng with _ | png <;> rw [hp] at h <;>
        exact SyncOutcome.noConfusion h
  · rw [if_pos (by simpa using h1)] at h
    exact SyncOutcome.noConfusion h

def elA : Elem :=
  { id := 3, dataSrc := some "a.svg", dataPng := none,
    src := "orig.png", styleAttr := none, hasParent := true }

def elA1 : Elem :=
  { id := 3, dataSrc := some "a.svg", dataPng := none,
    src := "", styleAttr := none, hasParent := true }

def stA1 : InjectorState :=
  { injectCount := 0, injectedElements := [some 3], ranScripts := fun _ => false }

/-- **C6, counterexample** — an injection attempt that ends in a terminal
failure (the load-error continuation) does not remove the element from
`injectedElements` (the deletion at line 316 sits only on the success
path), so a later re-attempt for the same element returns without
effect. -/
theorem c6_counterexample_failure_keeps_tracker_blocks_reattempt :
    injectStart env0 elA st0 = .proceed elA1 stA1 "a.svg"
    ∧ injectFinish "always" "a.svg" elA1 stA1 (.err (some "Unable to load SVG file: a.svg")) =
        .errCallback (some "Unable to load SVG file: a.svg") stA1 []
    ∧ injectStart env0 elA1 stA1 = .noEffect :=
  ⟨rfl, rfl, rfl⟩

/-- **C6, amended** — during an attempt the element is a member of the
tracker.  On terminal failure the error is forwarded but the element is
NOT removed: it stays a member and a re-attempt for it returns without
effect.  Only successful completion removes the element, after which a
re-attempt is possible again. -/
theorem c6_amended_tracker_removed_only_on_success
    (env : Env) (el : Elem) (st : InjectorState) (el1 : Elem) (st1 : InjectorState)
    (url policy : String) (m : Option String) (svg : Svg) (cap rem : List Script)
    (h : injectStart env el st = .proceed el1 st1 url)
    (hp : pruneScripts svg.scripts = .ok (cap, rem))
    (he : (evalScriptsStep policy url st1.ranScripts cap).2.1 = none)
    (hpar : el1.hasParent = true) :
    st1.injectedElements.contains (some el.id) = true
    ∧ injectFinish policy url el1 st1 (.err m) = .errCallback m st1 []
    ∧ injectStart env el1 st1 = .noEffect
    ∧ ∃ svgR stS ex,
        injectFinish policy url el1 st1 (.node svg) = .success svgR stS ex
        ∧ stS.injectedElements.contains (some el.id) = false
        ∧ injectStart env el1 stS ≠ .noEffect := by
  obtain ⟨hext, hsup, hnc, hel1, hst1, hurl⟩ :=
    injectStart_proceed_inv env el st el1 st1 url h
  subst hel1
  have hmemb : st1.injectedElements.contains (some el.id) = true := by
    rw [hst1]
    exact contains_append_self _ _
  have hs := pipeline_scripts st1.injectCount svg
  have hpar2 : el.hasParent = true := hpar
  have hfin : injectFinish policy url { el with src := "" } st1 (.node svg) =
      .success
        (styleWorkaround
          { removeXmlnsA (iriRewrite st1.injectCount (setRootSizing svg)) with
              scripts := rem })
        { injectCount := st1.injectCount + 1,
          injectedElements := removeElem st1.injectedElements ({ el with src := "" } : Elem).id,
          ranScripts := (evalScriptsStep policy url st1.ranScripts cap).2.2 }
        (evalScriptsStep policy url st1.ranScripts cap).1 := by
    simp only [injectFinish, hs, hp, he, hpar2]
    simp
  have htrk : (removeElem st1.injectedElements
      (({ el with src := "" } : Elem).id)).contains (some el.id) = false := by
    rw [hst1]
    show (removeElem (st.injectedElements ++ [some el.id]) el.id).contains (some el.id) = false
    rw [removeElem_append _ _ hnc]
    exact contains_append_none_false _ _ hnc
  have hmembP : some el.id ∈ st1.injectedElements := by simpa using hmemb
  have htrkP : some el.id ∉ removeElem st1.injectedElements el.id := by simpa using htrk
  refine ⟨hmemb, rfl, ?_, ?_⟩
  · simp only [injectStart]
    simp [hext, hsup, hmembP]
  · refine ⟨_, _, _, hfin, htrk, ?_⟩
    simp only [injectStart]
    simp [hext, hsup, htrkP]

/-- Fresh tree and element for the C6 witness. -/
def elW : Elem :=
  { id := 4, dataSrc := some "b.svg", dataPng := none,
    src := "b.png", styleAttr := none, hasParent := true }

/-- Witness for the amended C6 at a concrete input. -/
theorem c6_amended_tracker_removed_only_on_success_witness :
    ({ injectCount := 0, injectedElements := [some 4],
        ranScripts := fun _ => false } : InjectorState).injectedElements.contains (some 4) = true
    ∧ injectFinish "always" "b.svg" { elW with src := "" }
        { injectCount := 0, injectedElements := [some 4], ranScripts := fun _ => false }
        (.err (some "Unable to load SVG file: b.svg")) =
        .errCallback (some "Unable to load SVG file: b.svg")
          { injectCount := 0, injectedElements := [some 4], ranScripts := fun _ => false } []
    ∧ injectStart env0 { elW with src := "" }
        { injectCount := 0, injectedElements := [some 4], ranScripts := fun _ => false } =
        .noEffect
    ∧ ∃ svgR stS ex,
        injectFinish "always" "b.svg" { elW with src := "" }
          { injectCount := 0, injectedElements := [some 4], ranScripts := fun _ => false }
          (.node svgPlain) = .success svgR stS ex
        ∧ stS.injectedElements.contains (some 4) = false
        ∧ injectStart env0 { elW with src := "" } stS ≠ .noEffect := by
  have := c6_amended_tracker_removed_only_on_success env0 elW st0
    { elW with src := "" }
    { injectCount := 0, injectedElements := [some 4], ranScripts := fun _ => false }
    "b.svg" "always" (some "Unable to load SVG file: b.svg") svgPlain [] []
    rfl rfl rfl rfl
  exact this

end SVGInjectorModel
